import Mathlib

/-!
Verification of the SecureTransport SSL adapter (`network-macosx.c`).

The development shallowly embeds the adapter's functions.  External
collaborators (the kernel's `read`/`write`/`select`, the SecureTransport
engine calls, the keychain search, and the trust panel) are modelled as
oracles: a trace of raw I/O outcomes for the relay loops, and per-call
status values for the one-shot engine operations.  Machine integers are
`Int`/`Nat`; `OSStatus` values are `Int` with the concrete SecureTransport
constants.
-/

/-- Byte values carried by the relay buffers. -/
abbrev Byte := Nat

/-- OSStatus success value. -/
def noErr : Int := 0

/-- OSStatus for SecureTransport would-block. -/
def errSSLWouldBlock : Int := -9803

/-- OSStatus for graceful peer close. -/
def errSSLClosedGraceful : Int := -9805

/-- OSStatus for an internal error. -/
def errSSLInternal : Int := -9810

/-- errno value for EAGAIN on Darwin. -/
def EAGAIN : Nat := 35

/-- Outcome of one raw `read` call: either a delivered byte chunk
(possibly empty, as at raw end-of-stream) or `-1` with an errno. -/
inductive RawRead where
  | ok (bs : List Byte)
  | err (errno : Nat)
deriving DecidableEq, Repr

/-- Outcome of one raw `write` call: either the count of bytes the kernel
accepted or `-1` with an errno.  A real `write` never accepts more than
the requested chunk, so the count is capped at the chunk size where the
loop consumes it. -/
inductive RawWrite where
  | ok (n : Nat)
  | err (errno : Nat)
deriving DecidableEq, Repr

/-- Overwrite `buf` at offset `off` with the chunk `bs`, the effect of
`read(fd, data+len, ...)` depositing `bs` into the callback buffer. -/
def writeAt (buf : List Byte) (off : Nat) (bs : List Byte) : List Byte :=
  buf.take off ++ bs ++ buf.drop (off + bs.length)

/-- Loop body of `_SSLReadFunction` (network-macosx.c lines 96-117):
`while (len < *dataLength)` issue `read(fd, data+len, *dataLength-len)`;
on `-1`/EAGAIN return the partial count with `errSSLWouldBlock`, on any
other errno return `errSSLInternal` (leaving `*dataLength` at its input
value), otherwise `len += res` and continue.  The trace supplies one raw
outcome per `read` call; `none` means the trace was exhausted with the
loop still running.  A delivered chunk is capped at the requested
`*dataLength - len` bytes, the most a real `read` can return. -/
def sslReadLoop (trace : List RawRead) (buf : List Byte) (dataLength len : Nat) :
    Option (List Byte × Nat × Int) :=
  if len < dataLength then
    match trace with
    | [] => none
    | RawRead.ok bs :: rest =>
        let delivered := bs.take (dataLength - len)
        sslReadLoop rest (writeAt buf len delivered) dataLength (len + delivered.length)
    | RawRead.err e :: _ =>
        if e = EAGAIN then some (buf, len, errSSLWouldBlock)
        else some (buf, dataLength, errSSLInternal)
  else
    some (buf, len, noErr)

/-- `_SSLReadFunction`: the read relay entered with `len = 0`. -/
def _SSLReadFunction (trace : List RawRead) (buf : List Byte) (dataLength : Nat) :
    Option (List Byte × Nat × Int) :=
  sslReadLoop trace buf dataLength 0

/-- Loop body of `_SSLWriteFunction` (network-macosx.c lines 119-140):
`while (len < *dataLength)` compute `chunk = min(*dataLength-len, 4096)`,
issue `write(fd, data+len, chunk)`; on `-1`/EAGAIN return the partial
count with `errSSLWouldBlock`, on any other errno return
`errSSLInternal`, otherwise `len += res` and continue.  The result
carries the list of chunk sizes requested from `write`, the bytes the
kernel accepted (in order), the final `*dataLength`, and the status.
An accepted count is capped at the requested chunk, the most a real
`write` can accept. -/
def sslWriteLoop (trace : List RawWrite) (data : List Byte) (dataLength len : Nat)
    (reqs : List Nat) (sent : List Byte) : Option (List Nat × List Byte × Nat × Int) :=
  if len < dataLength then
    match trace with
    | [] => none
    | RawWrite.ok n :: rest =>
        let chunk := min (dataLength - len) 4096
        let res := min n chunk
        sslWriteLoop rest data dataLength (len + res)
          (reqs ++ [chunk]) (sent ++ (data.drop len).take res)
    | RawWrite.err e :: _ =>
        if e = EAGAIN then some (reqs, sent, len, errSSLWouldBlock)
        else some (reqs, sent, dataLength, errSSLInternal)
  else
    some (reqs, sent, len, noErr)

/-- `_SSLWriteFunction`: the write relay entered with `len = 0` and empty
accumulators. -/
def _SSLWriteFunction (trace : List RawWrite) (data : List Byte) (dataLength : Nat) :
    Option (List Nat × List Byte × Nat × Int) :=
  sslWriteLoop trace data dataLength 0 [] []

/-- GLib `GIOStatus` values returned by the channel read/write hooks. -/
inductive GIOStatus where
  | normal | error | eof | again
deriving DecidableEq, Repr

/-- Function table of the wrapped raw channel.  A GLib unix channel's
operations read the descriptor stored in the word right after the
`GIOChannel` header, so each operation is modelled as a function of that
descriptor slot together with its own arguments. -/
structure RawFuncs where
  seekFn : Int → Int → Nat → Int
  closeFn : Int → Int
  createWatchFn : Int → Nat → Nat
  setFlagsFn : Int → Nat → Int
  getFlagsFn : Int → Nat

/-- The wrapped raw (unix) channel: its descriptor and its function table. -/
structure RawChannel where
  fd : Int
  funcs : RawFuncs

/-- The `GIOSSLChannel` struct (network-macosx.c lines 31-39): the
`GIOChannel` header is followed by `fd`, the wrapped raw channel, the
crypto context, the verify flag and the hostname.  The layout puts `fd`
exactly where a `GIOUnixChannel` keeps its descriptor, which is what the
structural pass-through functions rely on. -/
structure GIOSSLChannel where
  fd : Int
  giochan : RawChannel
  context : Nat
  verify : Bool
  hostname : String

/-- `irssi_ssl_read` (lines 150-174): one `SSLRead` call, whose outcome
is the oracle pair `status`/`processed`; `noErr` yields the processed
count with `G_IO_STATUS_NORMAL`, otherwise `*ret = 0` and would-block,
graceful close, and anything else map to AGAIN, EOF, ERROR. -/
def irssi_ssl_read (chan : GIOSSLChannel) (status : Int) (processed : Nat) :
    Nat × GIOStatus :=
  if status = noErr then (processed, GIOStatus.normal)
  else if status = errSSLWouldBlock then (0, GIOStatus.again)
  else if status = errSSLClosedGraceful then (0, GIOStatus.eof)
  else (0, GIOStatus.error)

/-- `irssi_ssl_write` (lines 176-195): one `SSLWrite` call; `noErr`
yields the processed count with NORMAL, otherwise `*ret = 0` and only
would-block maps to AGAIN — every other status, graceful close
included, maps to ERROR. -/
def irssi_ssl_write (chan : GIOSSLChannel) (status : Int) (processed : Nat) :
    Nat × GIOStatus :=
  if status = noErr then (processed, GIOStatus.normal)
  else if status = errSSLWouldBlock then (0, GIOStatus.again)
  else (0, GIOStatus.error)

/-- `irssi_ssl_seek` (lines 197-202): calls the raw channel's `io_seek`
on `handle`; the raw operation reads the descriptor slot, which in the
adapter channel is `chan.fd`. -/
def irssi_ssl_seek (chan : GIOSSLChannel) (offset : Int) (seekType : Nat) : Int :=
  chan.giochan.funcs.seekFn chan.fd offset seekType

/-- `irssi_ssl_create_watch` (lines 211-216): delegates to the raw
channel's `io_create_watch` with the condition unchanged. -/
def irssi_ssl_create_watch (chan : GIOSSLChannel) (cond : Nat) : Nat :=
  chan.giochan.funcs.createWatchFn chan.fd cond

/-- `irssi_ssl_set_flags` (lines 218-223): delegates to the raw
channel's `io_set_flags` with the flags unchanged. -/
def irssi_ssl_set_flags (chan : GIOSSLChannel) (flags : Nat) : Int :=
  chan.giochan.funcs.setFlagsFn chan.fd flags

/-- `irssi_ssl_get_flags` (lines 225-230): delegates to the raw
channel's `io_get_flags`. -/
def irssi_ssl_get_flags (chan : GIOSSLChannel) : Nat :=
  chan.giochan.funcs.getFlagsFn chan.fd

/-- `SecTrustResultType` values produced by `SecTrustEvaluate`. -/
inductive SecTrustResultType where
  | invalid | proceed | confirm | deny | unspecified
  | recoverableTrustFailure | fatalTrustFailure | otherError
deriving DecidableEq, Repr

/-- Oracle for one invocation of `irssi_ssl_handshake`: the outcome of
the zero-timeout `select` on the descriptor, the stale `errno` it may
inspect, and the statuses the SecureTransport calls would return. -/
structure HandshakeOracle where
  selectRet : Int
  selectErrno : Nat
  handshakeStatus : Int
  copyTrustStatus : Int
  evalStatus : Int
  trustResult : SecTrustResultType
  panelCode : Int

/-- Observable calls made during one handshake invocation: how many
times `SSLHandshake` was stepped and how many times the trust panel
(the external TrustEvaluator) was invoked. -/
structure HSEvents where
  handshakeSteps : Nat
  panelCalls : Nat
deriving DecidableEq, Repr

/-- `irssi_ssl_handshake` (lines 243-312).  The zero-timeout `select`
for writability comes first; `ret = 0` or `errno == EAGAIN` return 3,
any other `select` failure returns -1, in both cases before
`SSLHandshake` runs.  Then one `SSLHandshake` step: would-block returns
1, other failures -1.  Then `SSLCopyPeerTrust` and `SecTrustEvaluate`
(failures return -1), and the switch on the trust result: `Proceed` and
`Unspecified` return 0 directly; every other result invokes the trust
panel once, whose code decides 0 versus -1. -/
def irssi_ssl_handshake (o : HandshakeOracle) : Int × HSEvents :=
  if o.selectRet < 1 then
    if o.selectRet = 0 ∨ o.selectErrno = EAGAIN then (3, ⟨0, 0⟩)
    else (-1, ⟨0, 0⟩)
  else
    if o.handshakeStatus ≠ noErr then
      if o.handshakeStatus = errSSLWouldBlock then (1, ⟨1, 0⟩) else (-1, ⟨1, 0⟩)
    else if o.copyTrustStatus ≠ noErr then (-1, ⟨1, 0⟩)
    else if o.evalStatus ≠ noErr then (-1, ⟨1, 0⟩)
    else
      match o.trustResult with
      | SecTrustResultType.proceed => (0, ⟨1, 0⟩)
      | SecTrustResultType.unspecified => (0, ⟨1, 0⟩)
      | _ => if o.panelCode ≠ 1 then (-1, ⟨1, 1⟩) else (0, ⟨1, 1⟩)

/-- Spec vocabulary for handshake return codes: 0 is Established,
negative is Failed, positive (1 and 3) is InProgress, to be retried
when the descriptor signals readiness. -/
inductive HandshakeResult where
  | established | inProgress | failed
deriving DecidableEq, Repr

/-- Interpretation of the integer the handshake entry point returns. -/
def classifyHandshake (r : Int) : HandshakeResult :=
  if r = 0 then HandshakeResult.established
  else if r < 0 then HandshakeResult.failed
  else HandshakeResult.inProgress

/-- One identity the keychain search can yield: the status of copying
its certificate, the status of copying that certificate's common name,
and the common name itself. -/
structure KeychainItem where
  certStatus : Int
  cnStatus : Int
  commonName : String
deriving DecidableEq, Repr

/-- Search loop of `CreateIdentityFromCommonName` (lines 56-82): walk
the identities `SecIdentitySearchCopyNext` yields; skip any whose
certificate or common name cannot be copied; stop at the first whose
common name equals the requested one. -/
def identityLoop (keychain : List KeychainItem) (certificate : String) (idx : Nat) :
    Option Nat :=
  match keychain with
  | [] => none
  | item :: rest =>
      if item.certStatus ≠ noErr then identityLoop rest certificate (idx + 1)
      else if item.cnStatus ≠ noErr then identityLoop rest certificate (idx + 1)
      else if item.commonName = certificate then some idx
      else identityLoop rest certificate (idx + 1)

/-- `CreateIdentityFromCommonName` (lines 41-94): fails when the search
cannot be created, otherwise returns the first matching keychain
identity.  The `privateKey` argument is accepted but never read — the
keychain search matches on the certificate common name alone. -/
def CreateIdentityFromCommonName (searchStatus : Int) (keychain : List KeychainItem)
    (certificate : String) (privateKey : String) : Option Nat :=
  if searchStatus ≠ noErr then none
  else identityLoop keychain certificate 0

/-- Which `return NULL` site of `irssi_ssl_get_iochannel` failed, each
distinguishable in the source by its log message. -/
inductive OpenFailure where
  | noDescriptor | contextCreation | ioFuncs | credential | certInstall | connectionBind
deriving DecidableEq, Repr

/-- Resource and I/O effects of one `irssi_ssl_get_iochannel` call:
contexts created (`SSLNewContext`), contexts disposed
(`SSLDisposeContext`), and raw reads/writes on the descriptor (the
function contains no raw I/O call, so these count the call sites, of
which there are none on any path). -/
structure OpenEvents where
  ctxCreated : Nat
  ctxDisposed : Nat
  rawReads : Nat
  rawWrites : Nat
deriving DecidableEq, Repr

/-- Oracle for one `irssi_ssl_get_iochannel` call: statuses of the
SecureTransport configuration calls and the keychain contents. -/
structure OpenOracle where
  newContextStatus : Int
  setIOFuncsStatus : Int
  searchStatus : Int
  keychain : List KeychainItem
  setCertStatus : Int
  setEncCertStatus : Int
  setConnectionStatus : Int

/-- Tail of `irssi_ssl_get_iochannel` (lines 377-397): allocate the
channel struct, fill it from the raw channel's descriptor, and bind the
context to it with `SSLSetConnection`; a bind failure disposes the
context and fails, otherwise the channel is returned. -/
def openFinish (o : OpenOracle) (handle : RawChannel) (hostname : String)
    (verify : Bool) : Except OpenFailure GIOSSLChannel × OpenEvents :=
  if o.setConnectionStatus ≠ noErr then
    (Except.error OpenFailure.connectionBind, ⟨1, 1, 0, 0⟩)
  else
    (Except.ok ⟨handle.fd, handle, 1, verify, hostname⟩, ⟨1, 0, 0, 0⟩)

/-- `irssi_ssl_get_iochannel` (lines 314-398).  A zero descriptor fails
before anything is created.  `SSLNewContext` failure fails with nothing
created; `SSLSetIOFuncs` failure disposes the fresh context.  With a
client certificate name, a failed identity lookup disposes the context
and fails (the credential path); a failure of
`SSLSetCertificate`/`SSLSetEncryptionCertificate` fails without
disposing (the source leaks the context there).  `cafile` and `capath`
are accepted and never read (the source marks them TODO). -/
def irssi_ssl_get_iochannel (o : OpenOracle) (handle : RawChannel) (hostname : String)
    (mycert : Option String) (mypkey : String) (cafile : String) (capath : String)
    (verify : Bool) : Except OpenFailure GIOSSLChannel × OpenEvents :=
  if handle.fd = 0 then (Except.error OpenFailure.noDescriptor, ⟨0, 0, 0, 0⟩)
  else if o.newContextStatus ≠ noErr then
    (Except.error OpenFailure.contextCreation, ⟨0, 0, 0, 0⟩)
  else if o.setIOFuncsStatus ≠ noErr then
    (Except.error OpenFailure.ioFuncs, ⟨1, 1, 0, 0⟩)
  else
    match mycert with
    | some cert =>
        match CreateIdentityFromCommonName o.searchStatus o.keychain cert mypkey with
        | none => (Except.error OpenFailure.credential, ⟨1, 1, 0, 0⟩)
        | some _ =>
            if o.setCertStatus ≠ noErr then
              (Except.error OpenFailure.certInstall, ⟨1, 0, 0, 0⟩)
            else if o.setEncCertStatus ≠ noErr then
              (Except.error OpenFailure.certInstall, ⟨1, 0, 0, 0⟩)
            else openFinish o handle hostname verify
    | none => openFinish o handle hostname verify

/-- Lifecycle states of a TransportChannel. -/
inductive LifecycleState where
  | unestablished | handshaking | established | failed
deriving DecidableEq, Repr

/-- Operations invokable on a constructed channel through its function
table, plus the handshake entry point. -/
inductive ChanOp where
  | opRead | opWrite | opSeek | opClose | opCreateWatch | opSetFlags | opGetFlags
  | opHandshake | opFree
deriving DecidableEq, Repr

/-- Resource releases each channel operation performs, as a pair
(context disposals, raw channel unrefs), read off each function body:
`irssi_ssl_free` (lines 142-148) calls `g_io_channel_unref` once and
`SSLDisposeContext` once; no other operation contains either call.
None of the functions inspects the lifecycle state, so the count is
uniform in it. -/
def opReleases (s : LifecycleState) : ChanOp → Nat × Nat
  | ChanOp.opFree => (1, 1)
  | _ => (0, 0)

/-- Total releases over a sequence of operations on one channel. -/
def totalReleases (s : LifecycleState) (ops : List ChanOp) : Nat × Nat :=
  ((ops.map fun op => (opReleases s op).1).sum,
   (ops.map fun op => (opReleases s op).2).sum)

/-- Number of `opFree` operations in a sequence. -/
def countFree (ops : List ChanOp) : Nat :=
  (ops.map fun op => if op = ChanOp.opFree then 1 else 0).sum

/-- Effect on the callback buffer of a run of successful raw reads:
each chunk is deposited at the running offset. -/
def writeAll (buf : List Byte) (len : Nat) : List (List Byte) → List Byte
  | [] => buf
  | c :: cs => writeAll (writeAt buf len c) (len + c.length) cs

/-- Concrete raw function table used by witnesses. -/
def sampleFuncs : RawFuncs :=
  ⟨fun fd off t => fd + off + (t : Int), fun fd => fd, fun _ c => c + 1,
   fun fd _ => fd, fun _ => 4⟩

/-- Concrete raw channel used by witnesses. -/
def sampleRaw : RawChannel := ⟨5, sampleFuncs⟩

/-- Concrete adapter channel used by witnesses; its `fd` equals the raw
channel's descriptor, as construction guarantees. -/
def sampleChan : GIOSSLChannel := ⟨5, sampleRaw, 1, true, "irc.example.net"⟩

/-- Concrete handshake oracle used by witnesses: writable descriptor,
successful crypto step and trust retrieval, a denied trust result, and
a panel answer other than NSOKButton. -/
def sampleHSOracle : HandshakeOracle :=
  ⟨1, 0, 0, 0, 0, SecTrustResultType.deny, 0⟩

/-- Concrete open oracle used by witnesses: all engine calls succeed and
the keychain is empty, so any identity lookup fails. -/
def sampleOpenOracle : OpenOracle := ⟨0, 0, 0, [], 0, 0, 0⟩

/-- Splitting a `take` at an intermediate point. -/
lemma take_add_split {α : Type} (l : List α) (m n : Nat) :
    l.take (m + n) = l.take m ++ (l.drop m).take n := by
  induction m generalizing l with
  | zero => simp
  | succ m ih =>
      cases l with
      | nil => simp
      | cons a t => simp [Nat.succ_add, ih]

/-- Depositing a chunk that fits preserves the buffer length. -/
lemma writeAt_length (buf : List Byte) (off : Nat) (bs : List Byte)
    (h : off + bs.length ≤ buf.length) : (writeAt buf off bs).length = buf.length := by
  unfold writeAt
  rw [List.length_append, List.length_append, List.length_take, List.length_drop]
  omega

/-- After depositing a chunk that fits, the buffer up to the new offset
is the untouched front followed by the chunk. -/
lemma writeAt_take (buf : List Byte) (off : Nat) (bs : List Byte)
    (h : off + bs.length ≤ buf.length) :
    (writeAt buf off bs).take (off + bs.length) = buf.take off ++ bs := by
  have hA : (buf.take off).length = off := by
    rw [List.length_take]; omega
  rw [writeAt, List.append_assoc, List.take_append_eq_append_take, hA,
    List.take_of_length_le (by omega), Nat.add_sub_cancel_left,
    List.take_append_eq_append_take, Nat.sub_self, List.take_of_length_le (Nat.le_refl _)]
  simp

/-- Depositing a fitting run of chunks preserves the buffer length. -/
lemma writeAll_length : ∀ (chunks : List (List Byte)) (buf : List Byte) (len : Nat),
    len + chunks.flatten.length ≤ buf.length →
    (writeAll buf len chunks).length = buf.length := by
  intro chunks
  induction chunks with
  | nil => intro buf len _; rfl
  | cons c cs ih =>
      intro buf len h
      simp only [List.flatten_cons, List.length_append] at h
      have h1 : len + c.length ≤ buf.length := by omega
      rw [writeAll, ih (writeAt buf len c) (len + c.length)
        (by rw [writeAt_length buf len c h1]; omega)]
      exact writeAt_length buf len c h1

/-- After a fitting run of chunks the buffer up to the final offset is
the untouched front followed by the chunks in order. -/
lemma writeAll_take : ∀ (chunks : List (List Byte)) (buf : List Byte) (len : Nat),
    len + chunks.flatten.length ≤ buf.length →
    (writeAll buf len chunks).take (len + chunks.flatten.length) =
      buf.take len ++ chunks.flatten := by
  intro chunks
  induction chunks with
  | nil => intro buf len _; simp [writeAll]
  | cons c cs ih =>
      intro buf len h
      simp only [List.flatten_cons, List.length_append] at h ⊢
      have h1 : len + c.length ≤ buf.length := by omega
      have h2 : len + c.length + cs.flatten.length ≤ (writeAt buf len c).length := by
        rw [writeAt_length buf len c h1]; omega
      rw [writeAll, show len + (c.length + cs.flatten.length)
            = len + c.length + cs.flatten.length by omega,
        ih (writeAt buf len c) (len + c.length) h2, writeAt_take buf len c h1,
        List.append_assoc]

/-- A run of successful raw reads advances the read relay loop past the
chunks, depositing them contiguously at the running offset. -/
lemma sslReadLoop_ok_run : ∀ (chunks : List (List Byte)) (rest : List RawRead)
    (buf : List Byte) (dL len : Nat), dL = buf.length →
    len + chunks.flatten.length < dL →
    sslReadLoop (chunks.map RawRead.ok ++ rest) buf dL len
      = sslReadLoop rest (writeAll buf len chunks) dL (len + chunks.flatten.length) := by
  intro chunks
  induction chunks with
  | nil => intro rest buf dL len _ _; simp [writeAll]
  | cons c cs ih =>
      intro rest buf dL len hdl h
      simp only [List.flatten_cons, List.length_append] at h
      have hlt : len < dL := by omega
      have hc : c.length ≤ dL - len := by omega
      have hstep : sslReadLoop ((c :: cs).map RawRead.ok ++ rest) buf dL len
          = sslReadLoop (cs.map RawRead.ok ++ rest) (writeAt buf len c) dL
              (len + c.length) := by
        rw [List.map_cons, List.cons_append, sslReadLoop, if_pos hlt]
        simp [List.take_of_length_le hc]
      rw [hstep, ih rest (writeAt buf len c) dL (len + c.length)
          (by rw [hdl]; exact (writeAt_length buf len c (by omega)).symm)
          (by omega),
        writeAll]
      congr 1
      simp only [List.flatten_cons, List.length_append]
      omega


/-- Unfolding of the write relay loop on an exhausted trace. -/
lemma sslWriteLoop_nil (data : List Byte) (dL len : Nat) (reqs : List Nat)
    (sent : List Byte) :
    sslWriteLoop [] data dL len reqs sent
      = if len < dL then none else some (reqs, sent, len, noErr) := rfl

/-- Unfolding of the write relay loop on an accepted raw write. -/
lemma sslWriteLoop_ok (m : Nat) (rest : List RawWrite) (data : List Byte)
    (dL len : Nat) (reqs : List Nat) (sent : List Byte) :
    sslWriteLoop (RawWrite.ok m :: rest) data dL len reqs sent
      = if len < dL then
          sslWriteLoop rest data dL (len + min m (min (dL - len) 4096))
            (reqs ++ [min (dL - len) 4096])
            (sent ++ (data.drop len).take (min m (min (dL - len) 4096)))
        else some (reqs, sent, len, noErr) := rfl

/-- Unfolding of the write relay loop on a failed raw write. -/
lemma sslWriteLoop_err (e : Nat) (rest : List RawWrite) (data : List Byte)
    (dL len : Nat) (reqs : List Nat) (sent : List Byte) :
    sslWriteLoop (RawWrite.err e :: rest) data dL len reqs sent
      = if len < dL then
          if e = EAGAIN then some (reqs, sent, len, errSSLWouldBlock)
          else some (reqs, sent, dL, errSSLInternal)
        else some (reqs, sent, len, noErr) := rfl

/-- Characterization of every terminating run of the write relay loop:
all requested chunks are bounded by 4096, a would-block return reports
exactly the bytes handed to the kernel so far (taken contiguously from
the running offset), and a success return reports the full length with
every remaining byte sent. -/
lemma sslWriteLoop_run : ∀ (trace : List RawWrite) (data : List Byte) (len : Nat)
    (reqs : List Nat) (sent : List Byte), len ≤ data.length →
    ∀ (reqs' : List Nat) (sent' : List Byte) (n : Nat) (st : Int),
      sslWriteLoop trace data data.length len reqs sent = some (reqs', sent', n, st) →
      (∀ r ∈ reqs', r ∈ reqs ∨ r ≤ 4096)
      ∧ (st = errSSLWouldBlock →
          len ≤ n ∧ n < data.length ∧ sent' = sent ++ (data.drop len).take (n - len))
      ∧ (st = noErr →
          n = data.length ∧ sent' = sent ++ (data.drop len).take (data.length - len)) := by
  intro trace
  induction trace with
  | nil =>
      intro data len reqs sent hlen reqs' sent' n st h
      rw [sslWriteLoop_nil] at h
      by_cases hlt : len < data.length
      · rw [if_pos hlt] at h; exact absurd h (by simp)
      · rw [if_neg hlt] at h
        obtain ⟨h1, h2, h3, h4⟩ := by simpa using h
        subst h1; subst h2; subst h3; subst h4
        refine ⟨fun r hr => Or.inl hr, fun hst => absurd hst (by decide), fun _ => ?_⟩
        have : len = data.length := by omega
        subst this
        simp
  | cons ev rest ih =>
      intro data len reqs sent hlen reqs' sent' n st h
      cases ev with
      | ok m =>
          rw [sslWriteLoop_ok] at h
          by_cases hlt : len < data.length
          · rw [if_pos hlt] at h
            set chunk := min (data.length - len) 4096 with hchunk
            set res := min m chunk with hres
            have hcb : chunk ≤ 4096 := Nat.min_le_right _ _
            have hcl : chunk ≤ data.length - len := Nat.min_le_left _ _
            have hrc : res ≤ chunk := Nat.min_le_right _ _
            have hlen' : len + res ≤ data.length := by omega
            obtain ⟨c1, c2, c3⟩ := ih data (len + res) (reqs ++ [chunk])
              (sent ++ (data.drop len).take res) hlen' reqs' sent' n st h
            refine ⟨?_, ?_, ?_⟩
            · intro r hr
              rcases c1 r hr with hin | hb
              · rcases List.mem_append.mp hin with hin' | hsing
                · exact Or.inl hin'
                · right
                  have : r = chunk := by simpa using hsing
                  omega
              · exact Or.inr hb
            · intro hst
              obtain ⟨d1, d2, d3⟩ := c2 hst
              refine ⟨by omega, d2, ?_⟩
              rw [d3, List.append_assoc]
              congr 1
              have hsplit : n - len = res + (n - (len + res)) := by omega
              rw [hsplit, take_add_split, List.drop_drop]
            · intro hst
              obtain ⟨d1, d2⟩ := c3 hst
              refine ⟨d1, ?_⟩
              rw [d2, List.append_assoc]
              congr 1
              have hsplit : data.length - len
                  = res + (data.length - (len + res)) := by omega
              rw [hsplit, take_add_split, List.drop_drop]
          · rw [if_neg hlt] at h
            obtain ⟨h1, h2, h3, h4⟩ := by simpa using h
            subst h1; subst h2; subst h3; subst h4
            refine ⟨fun r hr => Or.inl hr, fun hst => absurd hst (by decide),
              fun _ => ?_⟩
            have : len = data.length := by omega
            subst this
            simp
      | err e =>
          rw [sslWriteLoop_err] at h
          by_cases hlt : len < data.length
          · rw [if_pos hlt] at h
            by_cases he : e = EAGAIN
            · rw [if_pos he] at h
              obtain ⟨h1, h2, h3, h4⟩ := by simpa using h
              subst h1; subst h2; subst h3; subst h4
              exact ⟨fun r hr => Or.inl hr,
                fun _ => ⟨Nat.le_refl _, hlt, by simp⟩,
                fun hst => absurd hst (by decide)⟩
            · rw [if_neg he] at h
              obtain ⟨h1, h2, h3, h4⟩ := by simpa using h
              subst h1; subst h2; subst h3; subst h4
              exact ⟨fun r hr => Or.inl hr,
                fun hst => absurd hst (by decide),
                fun hst => absurd hst (by decide)⟩
          · rw [if_neg hlt] at h
            obtain ⟨h1, h2, h3, h4⟩ := by simpa using h
            subst h1; subst h2; subst h3; subst h4
            refine ⟨fun r hr => Or.inl hr, fun hst => absurd hst (by decide),
              fun _ => ?_⟩
            have : len = data.length := by omega
            subst this
            simp

/-- C6: `read` returns the decrypted count with Normal on engine
success, and otherwise zero bytes with Again on would-block, Eof on
graceful close, and Error on any other engine status; `write` uses the
same mapping except that there is no Eof — every non-success,
non-would-block status, graceful close included, maps to Error, and a
would-block from either operation reports zero bytes. -/
theorem ssl_read_write_status_map :
    (∀ (chan : GIOSSLChannel) (p : Nat),
        irssi_ssl_read chan noErr p = (p, GIOStatus.normal))
    ∧ (∀ (chan : GIOSSLChannel) (p : Nat),
        irssi_ssl_read chan errSSLWouldBlock p = (0, GIOStatus.again))
    ∧ (∀ (chan : GIOSSLChannel) (p : Nat),
        irssi_ssl_read chan errSSLClosedGraceful p = (0, GIOStatus.eof))
    ∧ (∀ (chan : GIOSSLChannel) (s : Int) (p : Nat),
        s ≠ noErr → s ≠ errSSLWouldBlock → s ≠ errSSLClosedGraceful →
        irssi_ssl_read chan s p = (0, GIOStatus.error))
    ∧ (∀ (chan : GIOSSLChannel) (p : Nat),
        irssi_ssl_write chan noErr p = (p, GIOStatus.normal))
    ∧ (∀ (chan : GIOSSLChannel) (p : Nat),
        irssi_ssl_write chan errSSLWouldBlock p = (0, GIOStatus.again))
    ∧ (∀ (chan : GIOSSLChannel) (p : Nat),
        irssi_ssl_write chan errSSLClosedGraceful p = (0, GIOStatus.error))
    ∧ (∀ (chan : GIOSSLChannel) (s : Int) (p : Nat),
        s ≠ noErr → s ≠ errSSLWouldBlock →
        irssi_ssl_write chan s p = (0, GIOStatus.error)) := by
  refine ⟨?_, ?_, ?_, ?_, ?_, ?_, ?_, ?_⟩ <;> intros <;>
    simp_all [irssi_ssl_read, irssi_ssl_write, noErr, errSSLWouldBlock,
      errSSLClosedGraceful]

/-- Witness for C6: the engine's internal-error status on read maps to
zero bytes with Error. -/
theorem ssl_read_write_status_map_witness :
    irssi_ssl_read sampleChan errSSLInternal 7 = (0, GIOStatus.error) :=
  ssl_read_write_status_map.2.2.2.1 sampleChan errSSLInternal 7
    (by decide) (by decide) (by decide)

/-- C2: a zero-timeout writability check on the raw descriptor gates
every handshake invocation — when the descriptor is not writable the
invocation returns 3 (a retryable InProgress) with zero `SSLHandshake`
steps, and any invocation that stepped the engine had seen a writable
descriptor. -/
theorem handshake_connectivity_gate :
    (∀ o : HandshakeOracle, o.selectRet = 0 →
        irssi_ssl_handshake o = (3, ⟨0, 0⟩)
        ∧ classifyHandshake (irssi_ssl_handshake o).1 = HandshakeResult.inProgress)
    ∧ (∀ o : HandshakeOracle,
        1 ≤ (irssi_ssl_handshake o).2.handshakeSteps → 1 ≤ o.selectRet) := by
  constructor
  · intro o h
    have h1 : o.selectRet < 1 := by omega
    simp [irssi_ssl_handshake, h, h1, classifyHandshake]
  · intro o h
    by_cases hs : o.selectRet < 1
    · exfalso
      revert h
      simp only [irssi_ssl_handshake, if_pos hs]
      split <;> simp
    · omega

/-- Witness for C2: with a timed-out select the handshake reports 3 and
never steps the engine. -/
theorem handshake_connectivity_gate_witness :
    irssi_ssl_handshake ⟨0, 0, 0, 0, 0, SecTrustResultType.proceed, 1⟩ = (3, ⟨0, 0⟩)
    ∧ classifyHandshake
        (irssi_ssl_handshake ⟨0, 0, 0, 0, 0, SecTrustResultType.proceed, 1⟩).1
      = HandshakeResult.inProgress :=
  handshake_connectivity_gate.1 ⟨0, 0, 0, 0, 0, SecTrustResultType.proceed, 1⟩ rfl

/-- C1: after a successful crypto handshake step the driver retrieves
and evaluates the peer trust; Proceed and Unspecified outcomes report
Established with zero trust-panel calls, every other outcome invokes
the panel exactly once, reporting Established when it answers 1 and
Failed otherwise. -/
theorem handshake_trust_escalation :
    ∀ o : HandshakeOracle, 1 ≤ o.selectRet → o.handshakeStatus = noErr →
      o.copyTrustStatus = noErr → o.evalStatus = noErr →
      ((o.trustResult = SecTrustResultType.proceed
          ∨ o.trustResult = SecTrustResultType.unspecified) →
          irssi_ssl_handshake o = (0, ⟨1, 0⟩)
          ∧ classifyHandshake (irssi_ssl_handshake o).1 = HandshakeResult.established)
      ∧ (o.trustResult ≠ SecTrustResultType.proceed →
          o.trustResult ≠ SecTrustResultType.unspecified →
          (irssi_ssl_handshake o).2.panelCalls = 1
          ∧ (o.panelCode = 1 → irssi_ssl_handshake o = (0, ⟨1, 1⟩)
              ∧ classifyHandshake (irssi_ssl_handshake o).1
                  = HandshakeResult.established)
          ∧ (o.panelCode ≠ 1 → irssi_ssl_handshake o = (-1, ⟨1, 1⟩)
              ∧ classifyHandshake (irssi_ssl_handshake o).1
                  = HandshakeResult.failed)) := by
  intro o h1 h2 h3 h4
  have hs : ¬ o.selectRet < 1 := by omega
  have hbody : irssi_ssl_handshake o
      = match o.trustResult with
        | SecTrustResultType.proceed => (0, ⟨1, 0⟩)
        | SecTrustResultType.unspecified => (0, ⟨1, 0⟩)
        | _ => if o.panelCode ≠ 1 then (-1, ⟨1, 1⟩) else (0, ⟨1, 1⟩) := by
    rw [irssi_ssl_handshake, if_neg hs, h2, h3, h4]
    simp
  constructor
  · intro htr
    rcases htr with htr | htr <;> rw [hbody, htr] <;>
      exact ⟨rfl, by simp [classifyHandshake]⟩
  · intro hp hu
    rw [hbody]
    cases htr : o.trustResult <;> simp_all <;>
      rcases eq_or_ne o.panelCode 1 with hpc | hpc <;>
        simp [hpc, classifyHandshake]

/-- Witness for C1: with a denied trust result and a panel answer other
than 1, the panel is invoked once and the handshake fails. -/
theorem handshake_trust_escalation_witness :
    (irssi_ssl_handshake sampleHSOracle).2.panelCalls = 1
    ∧ (sampleHSOracle.panelCode = 1 → irssi_ssl_handshake sampleHSOracle = (0, ⟨1, 1⟩)
        ∧ classifyHandshake (irssi_ssl_handshake sampleHSOracle).1
            = HandshakeResult.established)
    ∧ (sampleHSOracle.panelCode ≠ 1 → irssi_ssl_handshake sampleHSOracle = (-1, ⟨1, 1⟩)
        ∧ classifyHandshake (irssi_ssl_handshake sampleHSOracle).1
            = HandshakeResult.failed) :=
  (handshake_trust_escalation sampleHSOracle (by decide) rfl rfl rfl).2
    (by decide) (by decide)

/-- C8: destroying a channel releases the crypto context exactly once
and the raw channel exactly once, in every lifecycle state: over any
operation sequence containing exactly one `irssi_ssl_free`, the total
release count is one disposal and one unref, because no other operation
releases either resource. -/
theorem free_releases_once :
    ∀ (s : LifecycleState) (ops : List ChanOp),
      countFree ops = 1 → totalReleases s ops = (1, 1) := by
  have hfst : ∀ (s : LifecycleState) (ops : List ChanOp),
      (ops.map fun op => (opReleases s op).1).sum = countFree ops := by
    intro s ops
    induction ops with
    | nil => rfl
    | cons op t ih =>
        cases op <;> simp [countFree, opReleases, List.map_cons, List.sum_cons] at * <;>
          omega
  have hsnd : ∀ (s : LifecycleState) (ops : List ChanOp),
      (ops.map fun op => (opReleases s op).2).sum = countFree ops := by
    intro s ops
    induction ops with
    | nil => rfl
    | cons op t ih =>
        cases op <;> simp [countFree, opReleases, List.map_cons, List.sum_cons] at * <;>
          omega
  intro s ops h
  rw [totalReleases, hfst, hsnd, h]

/-- Witness for C8: a read, one free, and a write in the Established
state release exactly one context and one raw channel. -/
theorem free_releases_once_witness :
    totalReleases LifecycleState.established
      [ChanOp.opRead, ChanOp.opFree, ChanOp.opWrite] = (1, 1) :=
  free_releases_once LifecycleState.established
    [ChanOp.opRead, ChanOp.opFree, ChanOp.opWrite] (by decide)

/-- C10: the CA bundle file, the CA directory path, and the private-key
reference have no influence on observable behavior — `open` returns the
identical result and events for any values of the three, and the
identity lookup ignores its private-key argument; every later
handshake, read, and write is a function of the returned channel alone,
so equal open results extend to equal downstream behavior. -/
theorem ca_and_pkey_noninterference :
    (∀ (o : OpenOracle) (handle : RawChannel) (hostname : String)
        (mycert : Option String) (pk pk' ca ca' cp cp' : String) (verify : Bool),
        irssi_ssl_get_iochannel o handle hostname mycert pk ca cp verify
          = irssi_ssl_get_iochannel o handle hostname mycert pk' ca' cp' verify)
    ∧ (∀ (st : Int) (kc : List KeychainItem) (cert pk pk' : String),
        CreateIdentityFromCommonName st kc cert pk
          = CreateIdentityFromCommonName st kc cert pk') := by
  constructor
  · intro o handle hostname mycert pk pk' ca ca' cp cp' verify
    cases mycert <;> rfl
  · intro st kc cert pk pk'
    rfl

/-- C7: when `open` is given a client certificate name the identity
lookup cannot resolve, it fails on the credential path, the freshly
created context is disposed before returning, and no raw read or write
has occurred. -/
theorem open_credential_failure :
    ∀ (o : OpenOracle) (handle : RawChannel)
      (hostname cert mypkey cafile capath : String) (verify : Bool),
      handle.fd ≠ 0 → o.newContextStatus = noErr → o.setIOFuncsStatus = noErr →
      CreateIdentityFromCommonName o.searchStatus o.keychain cert mypkey = none →
      irssi_ssl_get_iochannel o handle hostname (some cert) mypkey cafile capath verify
        = (Except.error OpenFailure.credential, ⟨1, 1, 0, 0⟩) := by
  intro o handle hostname cert mypkey cafile capath verify h1 h2 h3 h4
  rw [irssi_ssl_get_iochannel, if_neg h1]
  rw [h2, h3]
  simp [h4]

/-- Witness for C7: an empty keychain cannot resolve any certificate
name, so open fails with the credential error, one context created and
disposed, and zero raw reads and writes. -/
theorem open_credential_failure_witness :
    irssi_ssl_get_iochannel sampleOpenOracle sampleRaw "irc.example.net"
        (some "mycert") "mykey" "cafile" "capath" true
      = (Except.error OpenFailure.credential, ⟨1, 1, 0, 0⟩) :=
  open_credential_failure sampleOpenOracle sampleRaw "irc.example.net"
    "mycert" "mykey" "cafile" "capath" true (by decide) rfl rfl rfl

/-- C9: seek, setFlags, getFlags, and createWatch produce exactly the
result of the wrapped raw channel's own operation on its own
descriptor, arguments unchanged; the construction conjunct shows every
channel `open` returns carries the raw channel with the matching
descriptor, which the pass-through relies on. -/
theorem structural_passthrough :
    (∀ chan : GIOSSLChannel, chan.fd = chan.giochan.fd →
        (∀ (off : Int) (t : Nat),
            irssi_ssl_seek chan off t
              = chan.giochan.funcs.seekFn chan.giochan.fd off t)
        ∧ (∀ fl : Nat,
            irssi_ssl_set_flags chan fl
              = chan.giochan.funcs.setFlagsFn chan.giochan.fd fl)
        ∧ irssi_ssl_get_flags chan = chan.giochan.funcs.getFlagsFn chan.giochan.fd
        ∧ (∀ c : Nat,
            irssi_ssl_create_watch chan c
              = chan.giochan.funcs.createWatchFn chan.giochan.fd c))
    ∧ (∀ (o : OpenOracle) (handle : RawChannel) (hostname : String)
        (mycert : Option String) (mypkey cafile capath : String) (verify : Bool)
        (chan : GIOSSLChannel) (ev : OpenEvents),
        irssi_ssl_get_iochannel o handle hostname mycert mypkey cafile capath verify
          = (Except.ok chan, ev) →
        chan.fd = chan.giochan.fd ∧ chan.giochan = handle) := by
  constructor
  · intro chan h
    exact ⟨fun off t => by rw [irssi_ssl_seek, h],
      fun fl => by rw [irssi_ssl_set_flags, h],
      by rw [irssi_ssl_get_flags, h],
      fun c => by rw [irssi_ssl_create_watch, h]⟩
  · intro o handle hostname mycert mypkey cafile capath verify chan ev h
    unfold irssi_ssl_get_iochannel openFinish at h
    repeat' split at h
    all_goals simp_all
    all_goals obtain ⟨hc, -⟩ := h
    all_goals subst hc
    all_goals exact ⟨rfl, rfl⟩

/-- Witness for C9: on a concretely constructed channel, seek delegates
to the raw channel's own seek on the raw descriptor. -/
theorem structural_passthrough_witness :
    irssi_ssl_seek sampleChan 7 1
      = sampleChan.giochan.funcs.seekFn sampleChan.giochan.fd 7 1 :=
  (structural_passthrough.1 sampleChan rfl).1 7 1

/-- C5 exhibit: a descriptor that keeps delivering zero-byte reads (raw
end-of-stream) never lets the read relay return — after consuming any
number of zero-byte raw reads the loop is still running, so control
never comes back to the crypto engine. -/
theorem relayRead_zero_read_spins :
    ∀ n : Nat, _SSLReadFunction (List.replicate n (RawRead.ok [])) [0] 1 = none := by
  intro n
  induction n with
  | zero => rfl
  | succ n ih =>
      rw [List.replicate_succ, _SSLReadFunction] at *
      simpa [sslReadLoop, writeAt] using ih

/-- C4: the read relay loops until the requested length is collected or
a raw read reports EAGAIN, returning the exact count of bytes already
filled together with would-block — the delivered bytes sit contiguously
at the front of the buffer, none dropped — and any raw failure other
than EAGAIN maps to the internal error, the delivered bytes still in
place. -/
theorem relayRead_partial_count_and_errors :
    (∀ (chunks : List (List Byte)) (rest : List RawRead) (buf : List Byte),
        chunks.flatten.length < buf.length →
        ∃ buf' : List Byte,
          _SSLReadFunction (chunks.map RawRead.ok ++ RawRead.err EAGAIN :: rest)
              buf buf.length
            = some (buf', chunks.flatten.length, errSSLWouldBlock)
          ∧ buf'.take chunks.flatten.length = chunks.flatten
          ∧ buf'.length = buf.length)
    ∧ (∀ (chunks : List (List Byte)) (e : Nat) (rest : List RawRead) (buf : List Byte),
        e ≠ EAGAIN → chunks.flatten.length < buf.length →
        ∃ buf' : List Byte,
          _SSLReadFunction (chunks.map RawRead.ok ++ RawRead.err e :: rest)
              buf buf.length
            = some (buf', buf.length, errSSLInternal)
          ∧ buf'.take chunks.flatten.length = chunks.flatten) := by
  constructor
  · intro chunks rest buf h
    refine ⟨writeAll buf 0 chunks, ?_, ?_, ?_⟩
    · rw [_SSLReadFunction,
        sslReadLoop_ok_run chunks (RawRead.err EAGAIN :: rest) buf buf.length 0 rfl
          (by omega),
        sslReadLoop, if_pos (by omega : 0 + chunks.flatten.length < buf.length)]
      simp
    · simpa using writeAll_take chunks buf 0 (by omega)
    · exact writeAll_length chunks buf 0 (by omega)
  · intro chunks e rest buf he h
    refine ⟨writeAll buf 0 chunks, ?_, ?_⟩
    · rw [_SSLReadFunction,
        sslReadLoop_ok_run chunks (RawRead.err e :: rest) buf buf.length 0 rfl
          (by omega),
        sslReadLoop, if_pos (by omega : 0 + chunks.flatten.length < buf.length)]
      simp [he]
    · simpa using writeAll_take chunks buf 0 (by omega)

/-- Witness for C4: two delivered chunks followed by EAGAIN yield the
exact partial count 3 with the bytes in order at the buffer front. -/
theorem relayRead_partial_count_and_errors_witness :
    ∃ buf' : List Byte,
      _SSLReadFunction
          (([[1, 2], [3]] : List (List Byte)).map RawRead.ok
            ++ RawRead.err EAGAIN :: [])
          [0, 0, 0, 0, 0] ([0, 0, 0, 0, 0] : List Byte).length
        = some (buf', ([[1, 2], [3]] : List (List Byte)).flatten.length,
            errSSLWouldBlock)
      ∧ buf'.take ([[1, 2], [3]] : List (List Byte)).flatten.length
          = ([[1, 2], [3]] : List (List Byte)).flatten
      ∧ buf'.length = ([0, 0, 0, 0, 0] : List Byte).length :=
  relayRead_partial_count_and_errors.1 [[1, 2], [3]] [] [0, 0, 0, 0, 0] (by decide)

/-- C3: the write relay issues raw writes in chunks of at most 4096
bytes, looping until all bytes are sent or a raw write reports
would-block; a would-block return carries the exact count of bytes
already handed to the kernel, a success return means every byte was
sent, and a caller resuming from the reported offset sends every byte
exactly once across the boundary. -/
theorem relayWrite_chunked_exact_resumption :
    (∀ (trace : List RawWrite) (data : List Byte) (reqs : List Nat)
        (sent : List Byte) (n : Nat) (st : Int),
        _SSLWriteFunction trace data data.length = some (reqs, sent, n, st) →
        ∀ r ∈ reqs, r ≤ 4096)
    ∧ (∀ (trace : List RawWrite) (data : List Byte) (reqs : List Nat)
        (sent : List Byte) (n : Nat),
        _SSLWriteFunction trace data data.length
          = some (reqs, sent, n, errSSLWouldBlock) →
        n < data.length ∧ sent = data.take n)
    ∧ (∀ (trace : List RawWrite) (data : List Byte) (reqs : List Nat)
        (sent : List Byte) (n : Nat),
        _SSLWriteFunction trace data data.length = some (reqs, sent, n, noErr) →
        n = data.length ∧ sent = data)
    ∧ (∀ (t1 t2 : List RawWrite) (data : List Byte) (reqs1 : List Nat)
        (sent1 : List Byte) (n : Nat) (reqs2 : List Nat) (sent2 : List Byte)
        (m : Nat),
        _SSLWriteFunction t1 data data.length
          = some (reqs1, sent1, n, errSSLWouldBlock) →
        _SSLWriteFunction t2 (data.drop n) (data.drop n).length
          = some (reqs2, sent2, m, noErr) →
        sent1 ++ sent2 = data) := by
  have hwb : ∀ (trace : List RawWrite) (data : List Byte) (reqs : List Nat)
      (sent : List Byte) (n : Nat),
      _SSLWriteFunction trace data data.length
        = some (reqs, sent, n, errSSLWouldBlock) →
      n < data.length ∧ sent = data.take n := by
    intro trace data reqs sent n h
    obtain ⟨-, c2, -⟩ := sslWriteLoop_run trace data 0 [] [] (Nat.zero_le _)
      reqs sent n errSSLWouldBlock h
    obtain ⟨-, d2, d3⟩ := c2 rfl
    refine ⟨d2, ?_⟩
    simpa using d3
  have hok : ∀ (trace : List RawWrite) (data : List Byte) (reqs : List Nat)
      (sent : List Byte) (n : Nat),
      _SSLWriteFunction trace data data.length = some (reqs, sent, n, noErr) →
      n = data.length ∧ sent = data := by
    intro trace data reqs sent n h
    obtain ⟨-, -, c3⟩ := sslWriteLoop_run trace data 0 [] [] (Nat.zero_le _)
      reqs sent n noErr h
    obtain ⟨d1, d2⟩ := c3 rfl
    refine ⟨d1, ?_⟩
    simpa using d2
  refine ⟨?_, hwb, hok, ?_⟩
  · intro trace data reqs sent n st h r hr
    obtain ⟨c1, -, -⟩ := sslWriteLoop_run trace data 0 [] [] (Nat.zero_le _)
      reqs sent n st h
    rcases c1 r hr with hin | hb
    · exact absurd hin (List.not_mem_nil r)
    · exact hb
  · intro t1 t2 data reqs1 sent1 n reqs2 sent2 m h1 h2
    obtain ⟨-, hs1⟩ := hwb t1 data reqs1 sent1 n h1
    obtain ⟨-, hs2⟩ := hok t2 (data.drop n) reqs2 sent2 m h2
    rw [hs1, hs2, List.take_append_drop]

/-- Witness for C3: a raw write that accepts 2 of 3 bytes and then
blocks, resumed from offset 2, sends exactly the three bytes once. -/
theorem relayWrite_chunked_exact_resumption_witness :
    ([1, 2] : List Byte) ++ [3] = [1, 2, 3] :=
  relayWrite_chunked_exact_resumption.2.2.2
    [RawWrite.ok 2, RawWrite.err EAGAIN] [RawWrite.ok 1] [1, 2, 3]
    [3] [1, 2] 2 [1] [3] 1 (by decide) (by decide)
